import Mathlib

/-!
Verification of `nmap_oui_update.py`, a script that refreshes the nmap
MAC-address vendor (OUI) lookup table from the IEEE registry.

Text is modelled as `List Char`.  The pure core of each Python function is
embedded directly:

* `hasSub hay nee` models Python's substring test `nee in hay`;
* `splitNl` models `str.split("\n")`;
* `matchOuiLine` models `re.search(r"^([0-9A-Fa-f]{6}) +\(base 16\)\t\t(.*)", line)`
  returning the two capture groups;
* `parseLoop` models the record-merging loop of `parse_oui_file`; a line that
  contains the marker but does not match the pattern makes `match.groups()`
  raise `AttributeError` on `None`, modelled as `Except.error ()`;
* `download_ieee_oui_file` models the fetch validation over the response
  status code and body;
* `main` models the orchestrator over an environment record, additionally
  tracking which working files were written and whether the install stage ran.
-/

namespace NmapOuiUpdate

/-- Python whitespace characters stripped by `str.strip()` (the ASCII ones;
Unicode whitespace codepoints are elided as they never arise here). -/
def isPySpace (c : Char) : Bool :=
  c == ' ' || c == '\t' || c == '\n' || c == '\r' || c == '\x0b' || c == '\x0c'

/-- Python `str.strip()`. -/
def strip (l : List Char) : List Char :=
  ((l.dropWhile isPySpace).reverse.dropWhile isPySpace).reverse

/-- `leadsWith hay nee` is true when `nee` is a leading block of `hay`. -/
def leadsWith (hay nee : List Char) : Bool :=
  match nee, hay with
  | [], _ => true
  | _ :: _, [] => false
  | b :: bs, a :: as => a == b && leadsWith as bs

/-- Python's substring containment `nee in hay`. -/
def hasSub : List Char → List Char → Bool
  | [], nee => nee.isEmpty
  | c :: t, nee => leadsWith (c :: t) nee || hasSub t nee

/-- Python `str.split("\n")`: splitting on every newline, keeping empty
pieces, yielding `[""]` on the empty string. -/
def splitNl : List Char → List (List Char)
  | [] => [[]]
  | c :: cs =>
    if c == '\n' then [] :: splitNl cs
    else
      match splitNl cs with
      | [] => [[c]]
      | l :: ls => (c :: l) :: ls

/-- The marker substring `"(base 16)"` tested by both the fetch validation
and the per-line filter of the merge loop. -/
def marker : List Char := "(base 16)".toList

/-- The literal that must follow the spaces in a matching registry line:
`"(base 16)\t\t"`. -/
def markerTabs : List Char := "(base 16)\t\t".toList

/-- A character of the regex class `[0-9A-Fa-f]`. -/
def isHexChar (c : Char) : Bool :=
  ('0' ≤ c && c ≤ '9') || ('A' ≤ c && c ≤ 'F') || ('a' ≤ c && c ≤ 'f')

/-- `re.search(r"^([0-9A-Fa-f]{6}) +\(base 16\)\t\t(.*)", line)`, returning
the two capture groups `(oui, org)` on a match.  The pattern is anchored at
the start of the line: exactly six hex characters, one or more spaces, the
literal `(base 16)`, two tabs, and the rest of the line as the organization. -/
def matchOuiLine (line : List Char) : Option (List Char × List Char) :=
  let oui := line.take 6
  let rest := line.drop 6
  if oui.length == 6 && oui.all isHexChar
      && !(rest.takeWhile (· == ' ')).isEmpty
      && leadsWith (rest.dropWhile (· == ' ')) markerTabs then
    some (oui, (rest.dropWhile (· == ' ')).drop markerTabs.length)
  else
    none

/-- Whether a line contains the marker: `"(base 16)" in line`. -/
def markerHit (line : List Char) : Bool := hasSub line marker

/-- The record appended for a new OUI: `f"{oui} {org.strip()}\n"`. -/
def mkRecord (oui org : List Char) : List Char :=
  oui ++ ' ' :: (strip org ++ ['\n'])

/-- The merge loop of `parse_oui_file`: fold over the lines of the fetched
document, appending unseen records to the buffer and counting them.
A marker-bearing line that fails the regex raises (`match.groups()` on
`None`), modelled as `Except.error ()`. -/
def parseLoop : List (List Char) → List Char → Nat → Except Unit (List Char × Nat)
  | [], buf, n => Except.ok (buf, n)
  | line :: rest, buf, n =>
    if markerHit line = true then
      match matchOuiLine line with
      | none => Except.error ()
      | some (oui, org) =>
        if hasSub buf oui = true then parseLoop rest buf n
        else parseLoop rest (buf ++ mkRecord oui org) (n + 1)
    else parseLoop rest buf n

/-- The list of `(oui, org)` pairs the merge loop appends, in the order they
are encountered in the document (empty from the point an error is raised). -/
def parseNewPairs : List (List Char) → List Char → List (List Char × List Char)
  | [], _ => []
  | line :: rest, buf =>
    if markerHit line = true then
      match matchOuiLine line with
      | none => []
      | some (oui, org) =>
        if hasSub buf oui = true then parseNewPairs rest buf
        else (oui, org) :: parseNewPairs rest (buf ++ mkRecord oui org)
    else parseNewPairs rest buf

/-- The records corresponding to `parseNewPairs`, as appended text. -/
def newRecordsText (lines : List (List Char)) (buf : List Char) : List Char :=
  ((parseNewPairs lines buf).map (fun p => mkRecord p.1 p.2)).flatten

/-- `parse_oui_file`: runs the merge loop on the backup content and the
fetched document.  Returns the content of the `nmap-mac-prefixes_updated`
file (written only when the new-record counter is nonzero) and the boolean
the Python function returns. -/
def parse_oui_file (backup_data oui_data : List Char) :
    Except Unit (Option (List Char) × Bool) :=
  match parseLoop (splitNl oui_data) backup_data 0 with
  | Except.error u => Except.error u
  | Except.ok (buf, n) =>
    if n ≠ 0 then Except.ok (some buf, true) else Except.ok (none, false)

/-- `download_ieee_oui_file` over the response: returns the content written
to the raw working file (if any) and the boolean the function returns.
The file is written, with the body verbatim, exactly when the status is 200
and the body contains the marker. -/
def download_ieee_oui_file (status : Nat) (body : List Char) :
    Option (List Char) × Bool :=
  if status == 200 && hasSub body marker then (some body, true)
  else (none, false)

/-- `is_root`: `os.geteuid() == 0`. -/
def is_root (euid : Nat) : Bool := euid == 0

/-- `apply_updated_file`: `shutil.copyfile` either succeeds — and the
function returns `True` unconditionally — or raises, modelled as
`Except.error ()`.  The function has no path returning `False`. -/
def apply_updated_file (copyFails : Bool) : Except Unit Bool :=
  if copyFails then Except.error () else Except.ok true

/-- The environment a run of `main` interacts with. -/
structure Env where
  euid : Nat
  status : Nat
  body : List Char
  installedTable : List Char
  copyFails : Bool
  deriving DecidableEq

/-- Observable file effects of a run: the raw working file, the updated
working file, whether the install stage was invoked, and the content of
the installed table afterwards. -/
structure RunState where
  rawFile : Option (List Char)
  updatedFile : Option (List Char)
  installCalled : Bool
  installed : List Char
  deriving DecidableEq

/-- The state before any stage has produced an effect. -/
def initState (e : Env) : RunState :=
  { rawFile := none, updatedFile := none, installCalled := false,
    installed := e.installedTable }

/-- `main`: the orchestrator.  Returns the run's file effects together with
either the process exit code or `Except.error ()` for an uncaught Python
exception propagating out of `main`. -/
def main (e : Env) : RunState × Except Unit Nat :=
  if is_root e.euid = false then (initState e, Except.ok 1)
  else
    let dl := download_ieee_oui_file e.status e.body
    let s1 : RunState := { initState e with rawFile := dl.1 }
    if dl.2 = false then (s1, Except.ok 2)
    else
      match parse_oui_file e.installedTable e.body with
      | Except.error u => (s1, Except.error u)
      | Except.ok (upd, parsedOk) =>
        let s2 : RunState := { s1 with updatedFile := upd }
        if parsedOk = true then
          match apply_updated_file e.copyFails with
          | Except.error u => ({ s2 with installCalled := true }, Except.error u)
          | Except.ok ok =>
            if ok = false then ({ s2 with installCalled := true }, Except.ok 4)
            else
              ({ s2 with installCalled := true
                         installed := upd.getD e.installedTable }, Except.ok 0)
        else (s2, Except.ok 0)

/-- A concrete privileged run that discovers one new record and whose install
copy fails; used as a witness input. -/
def envInstallFail : Env :=
  ⟨0, 200, "AABBCC     (base 16)\t\tWidget Inc".toList,
    "001122 Acme\n".toList, true⟩

/-- A concrete privileged run that discovers no new record; used as a witness
input. -/
def envNoNew : Env :=
  ⟨0, 200, "001122     (base 16)\t\tAcme Corp".toList,
    "001122 Acme Corp\n".toList, false⟩

/-- A concrete unprivileged run; used as a witness input. -/
def envNotRoot : Env := ⟨1000, 200, "(base 16)".toList, "x\n".toList, false⟩

/-! ### Substring lemmas -/

theorem hasSub_nil (hay : List Char) : hasSub hay [] = true := by
  induction hay with
  | nil => rfl
  | cons c t ih => simp [hasSub, leadsWith]

theorem leadsWith_self_append (nee t : List Char) :
    leadsWith (nee ++ t) nee = true := by
  induction nee with
  | nil => simp [leadsWith]
  | cons b bs ih => simp [leadsWith, ih]

theorem leadsWith_append_right (hay r nee : List Char)
    (h : leadsWith hay nee = true) : leadsWith (hay ++ r) nee = true := by
  induction nee generalizing hay with
  | nil => simp [leadsWith]
  | cons b bs ih =>
    cases hay with
    | nil => simp [leadsWith] at h
    | cons a as =>
      simp only [leadsWith, Bool.and_eq_true] at h
      simp only [List.cons_append, leadsWith, Bool.and_eq_true]
      exact ⟨h.1, ih as h.2⟩

theorem hasSub_append_right (buf r nee : List Char)
    (h : hasSub buf nee = true) : hasSub (buf ++ r) nee = true := by
  induction buf with
  | nil =>
    simp only [hasSub, List.isEmpty_iff] at h
    subst h
    simpa using hasSub_nil r
  | cons c t ih =>
    simp only [hasSub, Bool.or_eq_true] at h
    rcases h with h | h
    · simp only [List.cons_append, hasSub, Bool.or_eq_true]
      exact Or.inl (leadsWith_append_right (c :: t) r nee h)
    · simp only [List.cons_append, hasSub, Bool.or_eq_true]
      exact Or.inr (ih h)

theorem hasSub_append_left (buf r nee : List Char)
    (h : hasSub r nee = true) : hasSub (buf ++ r) nee = true := by
  induction buf with
  | nil => simpa using h
  | cons c t ih =>
    simp only [List.cons_append, hasSub, Bool.or_eq_true]
    exact Or.inr ih

theorem hasSub_self_append (nee t : List Char) : hasSub (nee ++ t) nee = true := by
  cases nee with
  | nil => simpa using hasSub_nil t
  | cons c cs =>
    simp only [List.cons_append, hasSub, Bool.or_eq_true]
    left
    exact leadsWith_self_append (c :: cs) t

theorem hasSub_mkRecord (buf oui org : List Char) :
    hasSub (buf ++ mkRecord oui org) oui = true := by
  have h : hasSub (mkRecord oui org) oui = true := by
    simpa [mkRecord] using hasSub_self_append oui (' ' :: (strip org ++ ['\n']))
  exact hasSub_append_left buf (mkRecord oui org) oui h

/-! ### Structural lemmas about the merge loop -/

/-- On a successful run, the final buffer is the starting buffer followed by
the appended records in encounter order, and the counter counts exactly the
appended records. -/
theorem parseLoop_ok_decomp (lines : List (List Char)) (buf : List Char)
    (n : Nat) (buf' : List Char) (n' : Nat)
    (h : parseLoop lines buf n = Except.ok (buf', n')) :
    buf' = buf ++ newRecordsText lines buf
      ∧ n' = n + (parseNewPairs lines buf).length := by
  induction lines generalizing buf n with
  | nil =>
    simp only [parseLoop, Except.ok.injEq, Prod.mk.injEq] at h
    simp [newRecordsText, parseNewPairs, h.1.symm, h.2.symm]
  | cons line rest ih =>
    cases hm : markerHit line with
    | true =>
      cases hmo : matchOuiLine line with
      | none => simp [parseLoop, hm, hmo] at h
      | some p =>
        obtain ⟨oui, org⟩ := p
        cases hs : hasSub buf oui with
        | true =>
          simp only [parseLoop, hm, if_true, hmo, hs] at h
          obtain ⟨h1, h2⟩ := ih buf n h
          constructor
          · rw [h1]
            simp [newRecordsText, parseNewPairs, hm, hmo, hs]
          · rw [h2]
            simp [parseNewPairs, hm, hmo, hs]
        | false =>
          simp [parseLoop, hm, hmo, hs] at h
          obtain ⟨h1, h2⟩ := ih (buf ++ mkRecord oui org) (n + 1) h
          constructor
          · rw [h1]
            simp [newRecordsText, parseNewPairs, hm, hmo, hs, List.append_assoc]
          · rw [h2]
            simp only [parseNewPairs, hm, hmo, hs]
            simp
            omega
    | false =>
      simp [parseLoop, hm] at h
      obtain ⟨h1, h2⟩ := ih buf n h
      refine ⟨?_, ?_⟩
      · rw [h1]; simp [newRecordsText, parseNewPairs, hm]
      · rw [h2]; simp [parseNewPairs, hm]

/-- On a successful run, every marker-bearing line of the document matched
the pattern and its extracted prefix is a substring of the final buffer. -/
theorem parseLoop_ok_allSeen (lines : List (List Char)) (buf : List Char)
    (n : Nat) (buf' : List Char) (n' : Nat)
    (h : parseLoop lines buf n = Except.ok (buf', n')) :
    ∀ line ∈ lines, markerHit line = true →
      ∃ oui org, matchOuiLine line = some (oui, org) ∧ hasSub buf' oui = true := by
  induction lines generalizing buf n with
  | nil => intro line hline; simp at hline
  | cons line rest ih =>
    intro l hl hml
    cases hm : markerHit line with
    | true =>
      cases hmo : matchOuiLine line with
      | none => simp [parseLoop, hm, hmo] at h
      | some p =>
        obtain ⟨oui, org⟩ := p
        cases hs : hasSub buf oui with
        | true =>
          simp only [parseLoop, hm, if_true, hmo, hs] at h
          rcases List.mem_cons.mp hl with rfl | hl2
          · refine ⟨oui, org, hmo, ?_⟩
            obtain ⟨h1, _⟩ := parseLoop_ok_decomp rest buf n buf' n' h
            rw [h1]
            exact hasSub_append_right buf _ oui hs
          · exact ih buf n h l hl2 hml
        | false =>
          simp [parseLoop, hm, hmo, hs] at h
          rcases List.mem_cons.mp hl with rfl | hl2
          · refine ⟨oui, org, hmo, ?_⟩
            obtain ⟨h1, _⟩ := parseLoop_ok_decomp rest (buf ++ mkRecord oui org)
              (n + 1) buf' n' h
            rw [h1]
            exact hasSub_append_right (buf ++ mkRecord oui org) _ oui
              (hasSub_mkRecord buf oui org)
          · exact ih (buf ++ mkRecord oui org) (n + 1) h l hl2 hml
    | false =>
      simp [parseLoop, hm] at h
      rcases List.mem_cons.mp hl with rfl | hl2
      · rw [hm] at hml; exact absurd hml (by simp)
      · exact ih buf n h l hl2 hml

/-- When every marker-bearing line matches the pattern and its prefix is
already a substring of the buffer, the loop appends nothing and counts
nothing. -/
theorem parseLoop_noNew (lines : List (List Char)) (buf : List Char) (n : Nat)
    (h : ∀ line ∈ lines, markerHit line = true →
      ∃ oui org, matchOuiLine line = some (oui, org) ∧ hasSub buf oui = true) :
    parseLoop lines buf n = Except.ok (buf, n) := by
  induction lines with
  | nil => rfl
  | cons line rest ih =>
    cases hm : markerHit line with
    | true =>
      obtain ⟨oui, org, hmo, hs⟩ := h line (List.mem_cons_self line rest) hm
      simp only [parseLoop, hm, if_true, hmo, hs]
      exact ih (fun l hl => h l (List.mem_cons_of_mem line hl))
    | false =>
      simp only [parseLoop, hm, Bool.false_eq_true, if_false]
      exact ih (fun l hl => h l (List.mem_cons_of_mem line hl))

/-- Every pair the loop appends has a prefix that was not a substring of the
buffer passed to the loop. -/
theorem parseNewPairs_not_seen (lines : List (List Char)) (buf : List Char)
    (p : List Char × List Char) (hp : p ∈ parseNewPairs lines buf) :
    hasSub buf p.1 = false := by
  induction lines generalizing buf with
  | nil => simp [parseNewPairs] at hp
  | cons line rest ih =>
    cases hm : markerHit line with
    | true =>
      cases hmo : matchOuiLine line with
      | none => simp [parseNewPairs, hm, hmo] at hp
      | some q =>
        obtain ⟨oui, org⟩ := q
        cases hs : hasSub buf oui with
        | true =>
          simp only [parseNewPairs, hm, if_true, hmo, hs] at hp
          exact ih buf hp
        | false =>
          simp only [parseNewPairs, hm, if_true, hmo, hs, Bool.false_eq_true,
            if_false, List.mem_cons] at hp
          rcases hp with rfl | hp2
          · exact hs
          · have h2 := ih (buf ++ mkRecord oui org) hp2
            cases hb : hasSub buf p.1 with
            | true =>
              exact absurd (hasSub_append_right buf (mkRecord oui org) p.1 hb)
                (by simp [h2])
            | false => rfl
    | false =>
      simp only [parseNewPairs, hm, Bool.false_eq_true, if_false] at hp
      exact ih buf hp

/-- The prefixes the loop appends in one run are pairwise distinct. -/
theorem parseNewPairs_fst_nodup (lines : List (List Char)) (buf : List Char) :
    ((parseNewPairs lines buf).map Prod.fst).Nodup := by
  induction lines generalizing buf with
  | nil => simp [parseNewPairs]
  | cons line rest ih =>
    cases hm : markerHit line with
    | true =>
      cases hmo : matchOuiLine line with
      | none => simp [parseNewPairs, hm, hmo]
      | some q =>
        obtain ⟨oui, org⟩ := q
        cases hs : hasSub buf oui with
        | true => simpa only [parseNewPairs, hm, if_true, hmo, hs] using ih buf
        | false =>
          simp only [parseNewPairs, hm, if_true, hmo, hs, Bool.false_eq_true,
            if_false, List.map_cons, List.nodup_cons]
          refine ⟨?_, ih (buf ++ mkRecord oui org)⟩
          intro hmem
          obtain ⟨p, hp, hfst⟩ := List.mem_map.mp hmem
          have hnot := parseNewPairs_not_seen rest (buf ++ mkRecord oui org) p hp
          rw [hfst] at hnot
          exact absurd (hasSub_mkRecord buf oui org) (by simp [hnot])
    | false =>
      simpa only [parseNewPairs, hm, Bool.false_eq_true, if_false] using ih buf

/-- Helper: `apply_updated_file` can only return `True`; its sole other
outcome is a raised exception. -/
theorem apply_updated_file_ok_true (c b : Bool)
    (h : apply_updated_file c = Except.ok b) : b = true := by
  cases c with
  | false => simpa [apply_updated_file] using h.symm
  | true => simp [apply_updated_file] at h

/-! ### Claims -/

/-- C1 (counterexample): the claim says a line containing `"(base 16)"` that
does not match the extraction pattern is skipped silently with no error; in
the code `re.search` returns `None` and `match.groups()` raises, so the merge
stage errors out on the document consisting of the single line `"(base 16)"`. -/
theorem marker_line_mismatch_raises_cex :
    markerHit ("(base 16)".toList) = true
    ∧ matchOuiLine ("(base 16)".toList) = none
    ∧ parse_oui_file ("x\n".toList) ("(base 16)".toList) = Except.error () :=
  ⟨by decide, by decide, rfl⟩

/-- C1 (amended): a line without the marker substring is skipped silently,
leaving buffer and counter unchanged; but a line containing the marker that
does not match the extraction pattern is not skipped — the merge stage raises
an uncaught error (`match.groups()` on `None`) and aborts. -/
theorem marker_line_mismatch_behavior (line : List Char)
    (rest : List (List Char)) (buf : List Char) (n : Nat) :
    (markerHit line = false →
      parseLoop (line :: rest) buf n = parseLoop rest buf n)
    ∧ (markerHit line = true → matchOuiLine line = none →
      parseLoop (line :: rest) buf n = Except.error ()) := by
  constructor
  · intro hm; simp [parseLoop, hm]
  · intro hm hmo; simp [parseLoop, hm, hmo]

/-- C1 (witness): the amended claim evaluated on the single malformed marker
line `"(base 16)"` and on a markerless line. -/
theorem marker_line_mismatch_behavior_witness :
    parseLoop ["(base 16)".toList] ("x\n".toList) 0 = Except.error ()
    ∧ parseLoop ["no marker here".toList] ("x\n".toList) 0
        = parseLoop [] ("x\n".toList) 0 :=
  ⟨(marker_line_mismatch_behavior ("(base 16)".toList) [] ("x\n".toList) 0).2
      (by decide) (by decide),
   (marker_line_mismatch_behavior ("no marker here".toList) [] ("x\n".toList) 0).1
      (by decide)⟩

/-- C2 (counterexample): when the backup content does not end with a newline,
the merged output's first N lines (N = the backup's line count) are not
byte-identical to the backup's lines: the first appended record fuses with the
backup's last line. -/
theorem merged_first_lines_cex :
    parse_oui_file ("001122 Acme".toList)
        ("AABBCC     (base 16)\t\tWidget Inc".toList)
      = Except.ok (some ("001122 AcmeAABBCC Widget Inc\n".toList), true)
    ∧ (splitNl ("001122 AcmeAABBCC Widget Inc\n".toList)).take
        (splitNl ("001122 Acme".toList)).length
      ≠ splitNl ("001122 Acme".toList) :=
  ⟨rfl, by decide⟩

/-- C2 (amended): the merged output written by the merge stage is exactly the
pre-existing backup content, byte-identical and unchanged as a prefix,
followed by the newly discovered records in the order they were encountered
in the fetched document, with no sorting; the first-N-lines phrasing holds
only when the backup content ends with a newline. -/
theorem merged_output_structure (backup doc buf : List Char)
    (h : parse_oui_file backup doc = Except.ok (some buf, true)) :
    buf = backup ++ newRecordsText (splitNl doc) backup := by
  unfold parse_oui_file at h
  cases hp : parseLoop (splitNl doc) backup 0 with
  | error u => rw [hp] at h; cases h
  | ok p =>
    obtain ⟨b, n⟩ := p
    rw [hp] at h
    dsimp only at h
    by_cases hn : n ≠ 0
    · rw [if_pos hn] at h
      obtain ⟨h1, _⟩ := parseLoop_ok_decomp (splitNl doc) backup 0 b n hp
      have hb : b = buf := by simpa using h
      rw [← hb]
      exact h1
    · rw [if_neg hn] at h
      simp at h

/-- C2 (witness): the amended claim evaluated on a backup ending with a
newline and a document contributing one new record. -/
theorem merged_output_structure_witness :
    "001122 Acme\nAABBCC Widget Inc\n".toList
      = "001122 Acme\n".toList
        ++ newRecordsText
          (splitNl ("AABBCC     (base 16)\t\tWidget Inc".toList))
          ("001122 Acme\n".toList) :=
  merged_output_structure ("001122 Acme\n".toList)
    ("AABBCC     (base 16)\t\tWidget Inc".toList)
    ("001122 Acme\nAABBCC Widget Inc\n".toList) rfl

/-- C3: running the merge loop a second time on the same fetched document,
with the buffer produced by the first run as the backup input, finds zero new
records: the loop returns the buffer unchanged with counter zero, and
`parse_oui_file` reports no new records (no updated file, return `False`). -/
theorem merge_idempotent (backup doc buf : List Char) (n : Nat)
    (h : parseLoop (splitNl doc) backup 0 = Except.ok (buf, n)) :
    parseLoop (splitNl doc) buf 0 = Except.ok (buf, 0)
    ∧ parse_oui_file buf doc = Except.ok (none, false) := by
  have hall := parseLoop_ok_allSeen (splitNl doc) backup 0 buf n h
  have h2 := parseLoop_noNew (splitNl doc) buf 0 hall
  refine ⟨h2, ?_⟩
  unfold parse_oui_file
  rw [h2]
  simp

/-- C3 (witness): the idempotence theorem evaluated on a run that appended
one record. -/
theorem merge_idempotent_witness :
    parseLoop (splitNl ("AABBCC     (base 16)\t\tWidget Inc".toList))
        ("001122 Acme\nAABBCC Widget Inc\n".toList) 0
      = Except.ok (("001122 Acme\nAABBCC Widget Inc\n".toList), 0)
    ∧ parse_oui_file ("001122 Acme\nAABBCC Widget Inc\n".toList)
        ("AABBCC     (base 16)\t\tWidget Inc".toList)
      = Except.ok (none, false) :=
  merge_idempotent ("001122 Acme\n".toList)
    ("AABBCC     (base 16)\t\tWidget Inc".toList)
    ("001122 Acme\nAABBCC Widget Inc\n".toList) 1 rfl

/-- C4: an extracted `(oui, org)` pair whose raw prefix occurs anywhere as a
substring of the accumulating buffer causes no append and no counter
increment: the loop continues on the remaining lines with the same buffer
and counter. -/
theorem existing_oui_not_appended (line : List Char) (rest : List (List Char))
    (buf : List Char) (n : Nat) (oui org : List Char)
    (hm : markerHit line = true) (hmo : matchOuiLine line = some (oui, org))
    (hs : hasSub buf oui = true) :
    parseLoop (line :: rest) buf n = parseLoop rest buf n := by
  simp [parseLoop, hm, hmo, hs]

/-- C4 (witness): a matching line whose prefix is already in the buffer is
processed without any append or count. -/
theorem existing_oui_not_appended_witness :
    parseLoop ["001122     (base 16)\t\tAcme Corp".toList]
        ("001122 Acme Corp\n".toList) 0
      = parseLoop [] ("001122 Acme Corp\n".toList) 0 :=
  existing_oui_not_appended ("001122     (base 16)\t\tAcme Corp".toList) []
    ("001122 Acme Corp\n".toList) 0 ("001122".toList) ("Acme Corp".toList)
    (by decide) (by decide) (by decide)

/-- C5: the fetch stage reports success if and only if the HTTP status is 200
and the body contains the marker substring; on success the raw working file
receives the response body verbatim, and on failure no file is written. -/
theorem fetch_validation (status : Nat) (body : List Char) :
    ((download_ieee_oui_file status body).2 = true
      ↔ (status = 200 ∧ hasSub body marker = true))
    ∧ ((download_ieee_oui_file status body).2 = true →
        (download_ieee_oui_file status body).1 = some body)
    ∧ ((download_ieee_oui_file status body).2 = false →
        (download_ieee_oui_file status body).1 = none) := by
  unfold download_ieee_oui_file
  by_cases h2 : status = 200 <;> cases hsub : hasSub body marker <;>
    simp [h2, hsub, beq_iff_eq]

/-- C5 (witness): the fetch contract evaluated at a 200 response whose body
is the marker itself, and at a 404 response with the same body. -/
theorem fetch_validation_witness :
    (download_ieee_oui_file 200 ("(base 16)".toList)).1 = some ("(base 16)".toList)
    ∧ (download_ieee_oui_file 404 ("(base 16)".toList)).1 = none :=
  ⟨(fetch_validation 200 ("(base 16)".toList)).2.1 (by decide),
   (fetch_validation 404 ("(base 16)".toList)).2.2 (by decide)⟩

/-- C6 (code bug): the claim — matching `main`'s visible intent, `return 4` on
install failure — does not hold of the code: `apply_updated_file`
unconditionally returns `True`, so a failing `shutil.copyfile` raises an
uncaught exception out of `main` and the distinct exit code 4 is unreachable
on every run.  The merged working file does remain in place. -/
theorem install_failure_uncaught (e : Env) (buf : List Char)
    (hroot : is_root e.euid = true)
    (hdl : (download_ieee_oui_file e.status e.body).2 = true)
    (hp : parse_oui_file e.installedTable e.body = Except.ok (some buf, true))
    (hf : e.copyFails = true) :
    (main e).2 = Except.error () ∧ (main e).1.updatedFile = some buf
    ∧ ∀ f : Env, (main f).2 ≠ Except.ok 4 := by
  refine ⟨?_, ?_, ?_⟩
  · simp [main, hroot, hdl, hp, hf, apply_updated_file]
  · simp [main, hroot, hdl, hp, hf, apply_updated_file]
  · intro f
    cases hr : is_root f.euid with
    | false => simp [main, hr]
    | true =>
      cases hd : (download_ieee_oui_file f.status f.body).2 with
      | false => simp [main, hr, hd]
      | true =>
        cases hpe : parse_oui_file f.installedTable f.body with
        | error u => simp [main, hr, hd, hpe]
        | ok p =>
          obtain ⟨upd, parsedOk⟩ := p
          cases parsedOk with
          | false => simp [main, hr, hd, hpe]
          | true =>
            cases hc : f.copyFails with
            | true => simp [main, hr, hd, hpe, hc, apply_updated_file]
            | false => simp [main, hr, hd, hpe, hc, apply_updated_file]

/-- C6 (witness): the install-failure behavior evaluated on a concrete
privileged run that found one new record and whose install copy fails. -/
theorem install_failure_uncaught_witness :
    (main envInstallFail).2 = Except.error ()
    ∧ (main envInstallFail).1.updatedFile
      = some ("001122 Acme\nAABBCC Widget Inc\n".toList) :=
  ⟨(install_failure_uncaught envInstallFail
      ("001122 Acme\nAABBCC Widget Inc\n".toList)
      (by decide) (by decide) rfl rfl).1,
   (install_failure_uncaught envInstallFail
      ("001122 Acme\nAABBCC Widget Inc\n".toList)
      (by decide) (by decide) rfl rfl).2.1⟩

/-- C7: when the merge stage finds zero new records, no updated working file
is written, the install stage is not invoked, the installed table is left
unchanged, and the process exits with the success code 0. -/
theorem no_new_records_success (e : Env)
    (hroot : is_root e.euid = true)
    (hdl : (download_ieee_oui_file e.status e.body).2 = true)
    (hp : parse_oui_file e.installedTable e.body = Except.ok (none, false)) :
    (main e).2 = Except.ok 0 ∧ (main e).1.updatedFile = none
    ∧ (main e).1.installCalled = false
    ∧ (main e).1.installed = e.installedTable := by
  refine ⟨?_, ?_, ?_, ?_⟩ <;> simp [main, hroot, hdl, hp, initState]

/-- C7 (witness): a privileged run over a document whose only record is
already installed exits 0 without writing the updated file or installing. -/
theorem no_new_records_success_witness :
    (main envNoNew).2 = Except.ok 0
    ∧ (main envNoNew).1.updatedFile = none :=
  ⟨(no_new_records_success envNoNew (by decide) (by decide) rfl).1,
   (no_new_records_success envNoNew (by decide) (by decide) rfl).2.1⟩

/-- C8: without root privileges the program terminates with the distinct
non-zero exit code 1, with no file or network effect: the run state equals
the initial state (no raw file, no updated file, no install call, installed
table unchanged). -/
theorem not_root_exits_one (e : Env) (h : is_root e.euid = false) :
    main e = (initState e, Except.ok 1)
    ∧ (1 : Nat) ≠ 0 ∧ (1 : Nat) ≠ 2 ∧ (1 : Nat) ≠ 4 := by
  refine ⟨?_, by decide, by decide, by decide⟩
  simp [main, h]

/-- C8 (witness): the privilege guard evaluated at a non-root effective uid. -/
theorem not_root_exits_one_witness :
    main envNotRoot = (initState envNotRoot, Except.ok 1) :=
  (not_root_exits_one envNotRoot (by decide)).1

/-- C9: within a single successful merge run, the buffer gains exactly the
records of `parseNewPairs` in encounter order, the counter counts them, and
their prefixes are pairwise distinct — so at most one new line is appended
per prefix string, later occurrences being suppressed by the containment
check. -/
theorem one_record_per_oui (backup doc buf : List Char) (n : Nat)
    (h : parseLoop (splitNl doc) backup 0 = Except.ok (buf, n)) :
    buf = backup ++ newRecordsText (splitNl doc) backup
    ∧ n = (parseNewPairs (splitNl doc) backup).length
    ∧ ((parseNewPairs (splitNl doc) backup).map Prod.fst).Nodup := by
  obtain ⟨h1, h2⟩ := parseLoop_ok_decomp (splitNl doc) backup 0 buf n h
  exact ⟨h1, by simpa using h2, parseNewPairs_fst_nodup (splitNl doc) backup⟩

/-- C9 (witness): a document repeating the same prefix in two matching lines
yields a single appended record. -/
theorem one_record_per_oui_witness :
    "x\nAABBCC Widget Inc\n".toList
      = "x\n".toList
        ++ newRecordsText
          (splitNl ("AABBCC     (base 16)\t\tWidget Inc\nAABBCC     (base 16)\t\tWidget Inc Duplicate".toList))
          ("x\n".toList)
    ∧ (1 : Nat) = (parseNewPairs
          (splitNl ("AABBCC     (base 16)\t\tWidget Inc\nAABBCC     (base 16)\t\tWidget Inc Duplicate".toList))
          ("x\n".toList)).length :=
  ⟨(one_record_per_oui ("x\n".toList)
      ("AABBCC     (base 16)\t\tWidget Inc\nAABBCC     (base 16)\t\tWidget Inc Duplicate".toList)
      ("x\nAABBCC Widget Inc\n".toList) 1 rfl).1,
   (one_record_per_oui ("x\n".toList)
      ("AABBCC     (base 16)\t\tWidget Inc\nAABBCC     (base 16)\t\tWidget Inc Duplicate".toList)
      ("x\nAABBCC Widget Inc\n".toList) 1 rfl).2.1⟩

/-- C10: the containment check is case-sensitive: with a buffer holding the
prefix only in uppercase, a lowercase matching line is treated as unseen —
a new line is appended for the lowercase form and the counter increments. -/
theorem case_sensitive_containment :
    hasSub ("AABBCC Acme\n".toList) ("aabbcc".toList) = false
    ∧ parseLoop (splitNl ("aabbcc     (base 16)\t\tAcme".toList))
        ("AABBCC Acme\n".toList) 0
      = Except.ok ("AABBCC Acme\naabbcc Acme\n".toList, 1) :=
  ⟨by decide, rfl⟩

end NmapOuiUpdate
